import Mathlib

/-!
Verification development for the ReVo repository's LLM routing and
engine-coordination layer.

The definitions below are shallow embeddings of the Python sources:
* `src/src/revoagent/ai/llm_fallback_manager.py`  (`LLMFallbackManager`)
* `src/packages/ai/optimized_llm_manager.py`      (`OptimizedLLMManager`)
* `src/packages/ai/api_llm_manager.py`            (`APILLMManager`)
* `src/packages/engines/engine_coordinator.py`    (`EngineCoordinator`)
* `src/src/revoagent/ai/llm_manager_enhanced.py`  (`LLMManagerEnhanced._update_stats`)

External effects (actual model inference, the asyncio event loop, wall-clock
timing, psutil probes, regular-expression search) are represented as explicit
function parameters; everything else follows the Python control flow
statement by statement.  Latency/timing fields, which carry wall-clock values,
are omitted from the embedded records since real time is not representable in
a shallow embedding; no claim below depends on them.
-/

/-- Substring test: mirrors Python's `sub in s` for nonempty `sub`
(`s.split(sub)` has at least two pieces exactly when `sub` occurs in `s`). -/
def containsSub (s sub : String) : Bool :=
  (s.splitOn sub).length ≥ 2

/-- Deduplication keeping first occurrences, with an accumulator of seen
elements: mirrors `[x for x in chain if not (x in seen or seen.add(x))]`
in `LLMFallbackManager.get_fallback_chain`. -/
def dedupAux (seen : List String) : List String → List String
  | [] => []
  | x :: xs => if x ∈ seen then dedupAux seen xs else x :: dedupAux (x :: seen) xs

/-- Deduplication keeping first occurrences (empty initial seen-set). -/
def dedupFirst (l : List String) : List String :=
  dedupAux [] l

/-- The seen-set accumulated by `dedupAux` after traversing a list. -/
def seenAfter (seen : List String) : List String → List String
  | [] => seen
  | x :: xs => if x ∈ seen then seenAfter seen xs else seenAfter (x :: seen) xs

/-! ## Embedding of `LLMFallbackManager` (src/src/revoagent/ai/llm_fallback_manager.py) -/

/-- The `FallbackReason` enum. -/
inductive FallbackReason
  | apiError
  | timeout
  | rateLimit
  | contentPolicy
  | lowResources
  | manualOverride
  | costLimit
  | contentBased
  | systemError
deriving DecidableEq

/-- The `.value` string of each `FallbackReason` member. -/
def FallbackReason.val : FallbackReason → String
  | .apiError => "api_error"
  | .timeout => "timeout"
  | .rateLimit => "rate_limit"
  | .contentPolicy => "content_policy"
  | .lowResources => "low_resources"
  | .manualOverride => "manual_override"
  | .costLimit => "cost_limit"
  | .contentBased => "content_based"
  | .systemError => "system_error"

/-- `LLMFallbackManager._determine_fallback_reason`: classify an error message
by keyword inspection of its lowercased text. -/
def determineFallbackReason (errorMessage : String) : FallbackReason :=
  let e := errorMessage.toLower
  if containsSub e "time" ∧ (containsSub e "out" ∨ containsSub e "exceed") then .timeout
  else if containsSub e "rate" ∧ containsSub e "limit" then .rateLimit
  else if containsSub e "content" ∨ containsSub e "policy" ∨ containsSub e "moderation" then .contentPolicy
  else if containsSub e "resource" ∨ containsSub e "memory" ∨ containsSub e "capacity" then .lowResources
  else if containsSub e "cost" ∨ containsSub e "billing" ∨ containsSub e "quota" then .costLimit
  else .apiError

/-- One configured API fallback provider (an entry of `config["api_fallbacks"]`):
only the fields `get_fallback_chain` reads. -/
structure ApiProvider where
  modelName : String
  priority : Nat
deriving DecidableEq

/-- One entry of `routing_rules["content_based"]`. -/
structure ContentRule where
  pattern : String
  preferredModels : List String

/-- The state of an initialized `LLMFallbackManager`, together with the
external collaborators it consults.  `reSearch p m` stands for
`re.search(p, m, re.IGNORECASE) is not None`; `managerStatus m` stands for
`model_manager.get_model_info(m).status.name` (`none` when lookup fails);
`bridgeModels` is `llm_bridge.get_available_models()`; `memPercent` is
`psutil.virtual_memory().percent`. -/
structure FMEnv where
  enabled : Bool
  localModels : List String
  apiPrimary : Option ApiProvider
  apiSecondary : List ApiProvider
  routingContent : List ContentRule
  lowMemoryPreferred : List String
  bridgeModels : List String
  managerStatus : String → Option String
  memPercent : ℚ
  reSearch : String → String → Bool
  strategy : String

/-- `LLMFallbackManager._is_model_available`: a model is available when it is a
registered local model, or the LLM bridge lists it, or the model manager knows
it with a status other than ERROR. -/
def isModelAvailable (e : FMEnv) (m : String) : Bool :=
  if m ∈ e.localModels then true
  else if m ∈ e.bridgeModels then true
  else match e.managerStatus m with
    | some st => st ≠ "ERROR"
    | none => false

/-- First available model of a preference list (the inner loops of
`select_optimal_model`). -/
def firstAvailable (e : FMEnv) : List String → Option String
  | [] => none
  | m :: ms => if isModelAvailable e m then some m else firstAvailable e ms

/-- The content-based routing loop of `select_optimal_model`: the first rule
whose nonempty pattern matches the message and whose preferred-model list
contains an available model decides; otherwise continue with later rules. -/
def contentRoute (e : FMEnv) (message : String) : List ContentRule → Option String
  | [] => none
  | r :: rs =>
    if r.pattern ≠ "" ∧ e.reSearch r.pattern message then
      match firstAvailable e r.preferredModels with
      | some m => some m
      | none => contentRoute e message rs
    else contentRoute e message rs

/-- `LLMFallbackManager._check_low_memory_mode`: low memory when more than 75
percent of memory is used. -/
def checkLowMemoryMode (e : FMEnv) : Bool :=
  e.memPercent > 75

/-- `LLMFallbackManager.select_optimal_model`: disabled manager returns the
context model; else content-based routing, then resource-based routing in low
memory mode, then the original model unchanged. -/
def selectOptimalModel (e : FMEnv) (message model0 : String) : String :=
  if e.enabled = false then model0
  else match contentRoute e message e.routingContent with
    | some m => m
    | none =>
      if checkLowMemoryMode e then
        match firstAvailable e e.lowMemoryPreferred with
        | some m => m
        | none => model0
      else model0

/-- The configured API fallback model names, primary first then secondaries
(the secondaries were sorted by priority during `initialize`). -/
def apiFallbackNames (e : FMEnv) : List String :=
  (match e.apiPrimary with
   | some p => [p.modelName]
   | none => []) ++ e.apiSecondary.map ApiProvider.modelName

/-- `LLMFallbackManager.get_fallback_chain` before deduplication: for a local
original, API fallbacks first, then the other local models; for a non-local
original, API fallbacks excluding the original, then all local models; in both
cases the CPU-optimized `deepseek-r1` is appended as last resort. -/
def rawFallbackChain (e : FMEnv) (original : String) : List String :=
  (if original ∈ e.localModels then
    apiFallbackNames e ++ e.localModels.filter (fun m => m ≠ original)
  else
    (apiFallbackNames e).filter (fun m => m ≠ original) ++ e.localModels)
  ++ ["deepseek-r1"]

/-- `LLMFallbackManager.get_fallback_chain`: the raw chain with duplicates
removed keeping first occurrences. -/
def getFallbackChain (e : FMEnv) (original : String) : List String :=
  dedupFirst (rawFallbackChain e original)

/-- The generation-result metadata dictionary returned by
`generate_with_fallback` (latency entries omitted: wall-clock time). -/
structure GenInfo where
  model : String
  originalModel : Option String
  fallbackUsed : Bool
  fallbackReason : Option String
  fallbackSuccess : Option Bool
  errorMsg : Option String
deriving DecidableEq

/-- The degraded-response text returned under the `degrade` strategy. -/
def degradedResponseText : String :=
  "I\x27m currently experiencing technical difficulties. Please try again later or rephrase your request."

/-- The fallback loop of `generate_with_fallback`: try each chain candidate in
order, returning the first successful model and its response. -/
def tryChain (tryGen : String → Except String String) : List String → Option (String × String)
  | [] => none
  | m :: ms =>
    match tryGen m with
    | .ok r => some (m, r)
    | .error _ => tryChain tryGen ms

/-- The models the fallback loop actually invokes: every failing candidate and
then the first succeeding one (all of them when none succeeds). -/
def triedModels (tryGen : String → Except String String) : List String → List String
  | [] => []
  | m :: ms =>
    match tryGen m with
    | .ok _ => [m]
    | .error _ => m :: triedModels tryGen ms

/-- `LLMFallbackManager.generate_with_fallback`.  `bridgeGen` is the direct
`llm_bridge.generate_response` call used when the fallback system is disabled;
`tryGen` is `_try_generate_with_model` (local model, CPU-optimized DeepSeek, or
the bridge, under the configured timeout), whose failure carries the stringified
exception.  An `Except.error` result is a raised exception. -/
def generateWithFallback (e : FMEnv) (bridgeGen tryGen : String → Except String String)
    (message model0 : String) : Except String (String × GenInfo) :=
  if e.enabled = false then
    (bridgeGen model0).map (fun r =>
      (r, { model := model0, originalModel := none, fallbackUsed := false,
            fallbackReason := none, fallbackSuccess := none, errorMsg := none }))
  else
    let model := selectOptimalModel e message model0
    let chain := getFallbackChain e model
    match tryGen model with
    | .ok r =>
      .ok (r, { model := model, originalModel := none, fallbackUsed := false,
                fallbackReason := none, fallbackSuccess := none, errorMsg := none })
    | .error primaryError =>
      match tryChain tryGen chain with
      | some (fm, r) =>
        .ok (r, { model := fm, originalModel := some model, fallbackUsed := true,
                  fallbackReason := some (determineFallbackReason primaryError).val,
                  fallbackSuccess := none, errorMsg := none })
      | none =>
        if e.strategy = "degrade" then
          .ok (degradedResponseText,
               { model := "degraded", originalModel := some model, fallbackUsed := true,
                 fallbackReason := none, fallbackSuccess := some false,
                 errorMsg := some primaryError })
        else .error primaryError

/-- The sequence of models `generate_with_fallback` hands to
`_try_generate_with_model` (for a disabled manager, the single direct bridge
call): the selected model, then, if it fails, the fallback candidates actually
invoked. -/
def generateTrace (e : FMEnv) (tryGen : String → Except String String)
    (message model0 : String) : List String :=
  if e.enabled = false then [model0]
  else
    let model := selectOptimalModel e message model0
    match tryGen model with
    | .ok _ => [model]
    | .error _ => model :: triedModels tryGen (getFallbackChain e model)

/-! ## Embedding of `OptimizedLLMManager` (src/packages/ai/optimized_llm_manager.py) -/

/-- The `LLMProvider` enum. -/
inductive LLMProvider
  | deepseekLocal
  | deepseekApi
  | openaiApi
  | anthropicApi
  | geminiApi
  | fallback
deriving DecidableEq

/-- The `LLMConfig` dataclass (generation-parameter fields `max_tokens`,
`temperature` and `base_url`, which selection never reads, are omitted). -/
structure LLMConfig where
  provider : LLMProvider
  modelName : String
  apiKey : Option String
  costPerRequest : ℚ
  requiresGpu : Bool
  minRamGb : ℚ
  priority : Nat
deriving DecidableEq

/-- The `HardwareProfile` dataclass. -/
structure HardwareProfile where
  cpuCores : Nat
  cpuFreq : ℚ
  ramGb : ℚ
  hasGpu : Bool
  gpuMemoryGb : ℚ
  canRunLocalLlm : Bool
  recommendedModelSize : String
deriving DecidableEq

/-- `OptimizedLLMManager._can_run_local_llm`. -/
def canRunLocalLlm (cpuCores : Nat) (cpuFreq ramGb : ℚ) : Bool :=
  if cpuFreq ≥ 1 ∧ ramGb ≥ 6 ∧ cpuCores ≥ 4 then true
  else decide (cpuFreq ≥ mkRat 3 2 ∧ ramGb ≥ 8 ∧ cpuCores ≥ 4)

/-- `OptimizedLLMManager._get_recommended_model_size`. -/
def recommendedModelSize (cpuFreq ramGb : ℚ) (hasGpu : Bool) (gpuMemoryGb : ℚ) : String :=
  if hasGpu = true ∧ gpuMemoryGb ≥ 16 then "large"
  else if hasGpu = true ∧ gpuMemoryGb ≥ 8 then "medium"
  else if ramGb ≥ 16 ∧ cpuFreq ≥ mkRat 5 2 then "medium"
  else if ramGb ≥ 8 ∧ cpuFreq ≥ mkRat 3 2 then "small"
  else "tiny"

/-- Assemble a `HardwareProfile` from raw probe values as
`OptimizedLLMManager._analyze_hardware` does on success. -/
def mkHardwareProfile (cpuCores : Nat) (cpuFreq ramGb : ℚ) (hasGpu : Bool)
    (gpuMemoryGb : ℚ) : HardwareProfile :=
  { cpuCores := cpuCores, cpuFreq := cpuFreq, ramGb := ramGb, hasGpu := hasGpu,
    gpuMemoryGb := gpuMemoryGb,
    canRunLocalLlm := canRunLocalLlm cpuCores cpuFreq ramGb,
    recommendedModelSize := recommendedModelSize cpuFreq ramGb hasGpu gpuMemoryGb }

/-- `OptimizedLLMManager._initialize_providers`: the registered provider table
in insertion order, keyed by provider, built from the hardware profile and the
API keys found in the environment. -/
def initializeProviders (hw : HardwareProfile)
    (deepseekKey openaiKey anthropicKey geminiKey : Option String) :
    List (LLMProvider × LLMConfig) :=
  (if hw.canRunLocalLlm = true then
    [(LLMProvider.deepseekLocal,
      { provider := .deepseekLocal,
        modelName := if hw.recommendedModelSize = "tiny" then
            "deepseek-r1-distill-qwen-1.5b-gguf" else "deepseek-r1-0528-qwen3-8b-gguf",
        apiKey := none, costPerRequest := 0, requiresGpu := false,
        minRamGb := if hw.recommendedModelSize = "tiny" then 4 else 8, priority := 1 })]
  else []) ++
  [(LLMProvider.deepseekApi,
    { provider := .deepseekApi, modelName := "deepseek-r1", apiKey := deepseekKey,
      costPerRequest := mkRat 1 1000, requiresGpu := false, minRamGb := 4, priority := 2 }),
   (LLMProvider.openaiApi,
    { provider := .openaiApi, modelName := "gpt-4o-mini", apiKey := openaiKey,
      costPerRequest := mkRat 1 100, requiresGpu := false, minRamGb := 4, priority := 3 }),
   (LLMProvider.anthropicApi,
    { provider := .anthropicApi, modelName := "claude-3-haiku-20240307", apiKey := anthropicKey,
      costPerRequest := mkRat 15 1000, requiresGpu := false, minRamGb := 4, priority := 4 }),
   (LLMProvider.geminiApi,
    { provider := .geminiApi, modelName := "gemini-1.5-flash", apiKey := geminiKey,
      costPerRequest := mkRat 5 1000, requiresGpu := false, minRamGb := 4, priority := 5 }),
   (LLMProvider.fallback,
    { provider := .fallback, modelName := "enhanced-template", apiKey := none,
      costPerRequest := 0, requiresGpu := false, minRamGb := 4, priority := 10 })]

/-- Whether a provider kind is one of the four API kinds checked for an API key
in `_can_use_provider`. -/
def isApiProvider : LLMProvider → Bool
  | .deepseekApi => true
  | .openaiApi => true
  | .anthropicApi => true
  | .geminiApi => true
  | _ => false

/-- `OptimizedLLMManager._can_use_provider`: reject a config that requires a
missing GPU, needs more RAM than the profile has, or is an API provider with
no API key. -/
def canUseProvider (hw : HardwareProfile) (c : LLMConfig) : Bool :=
  if c.requiresGpu = true ∧ hw.hasGpu = false then false
  else if c.minRamGb > hw.ramGb then false
  else if isApiProvider c.provider = true ∧ c.apiKey = none then false
  else true

/-- Stable insertion into a priority-sorted provider list: the inserted element
(the earlier one in the original table) passes only strictly smaller
priorities, so it lands before entries of equal priority, as Python's stable
`sorted(items, key=priority)` orders them. -/
def insertByPriority (x : LLMProvider × LLMConfig) :
    List (LLMProvider × LLMConfig) → List (LLMProvider × LLMConfig)
  | [] => [x]
  | y :: ys => if y.2.priority < x.2.priority then y :: insertByPriority x ys else x :: y :: ys

/-- Stable sort of the provider table by ascending `priority` (the
`sorted(self.available_providers.items(), key=lambda x: x[1].priority)` step of
`_select_best_provider`). -/
def sortByPriority : List (LLMProvider × LLMConfig) → List (LLMProvider × LLMConfig)
  | [] => []
  | x :: xs => insertByPriority x (sortByPriority xs)

/-- First provider of a list passing `_can_use_provider` (the selection loop of
`_select_best_provider`). -/
def findUsable (hw : HardwareProfile) :
    List (LLMProvider × LLMConfig) → Option LLMProvider
  | [] => none
  | pc :: rest => if canUseProvider hw pc.2 = true then some pc.1 else findUsable hw rest

/-- The manager state `_select_best_provider` reads. -/
structure OptState where
  hardware : HardwareProfile
  availableProviders : List (LLMProvider × LLMConfig)
  userPreference : Option LLMProvider

/-- The priority-loop portion of `_select_best_provider`: first usable provider
in priority order, defaulting to `FALLBACK` when none is usable. -/
def selectLoop (st : OptState) : LLMProvider :=
  match findUsable st.hardware (sortByPriority st.availableProviders) with
  | some p => p
  | none => .fallback

/-- `OptimizedLLMManager._select_best_provider`: a registered, usable user
preference wins; otherwise the first usable provider by ascending priority;
otherwise `FALLBACK`. -/
def selectBestProvider (st : OptState) : LLMProvider :=
  match st.userPreference with
  | some pref =>
    match st.availableProviders.find? (fun pc => decide (pc.1 = pref)) with
    | some pc => if canUseProvider st.hardware pc.2 = true then pref else selectLoop st
    | none => selectLoop st
  | none => selectLoop st

/-- `LLMFallbackManager._check_system_resources`: reject a model config whose
positive RAM requirement exceeds the currently available RAM (in the source a
probe error defaults to accepting; the pure embedding has no probe errors). -/
def checkSystemResources (availableRamGb minRamGb : ℚ) : Bool :=
  if minRamGb > 0 then
    if availableRamGb < minRamGb then false else true
  else true

/-! ## Embedding of `APILLMManager` (src/packages/ai/api_llm_manager.py) -/

/-- The `ModelType` enum. -/
inductive ModelType
  | apiDeepseek
  | apiClaude
  | apiGemini
  | apiOpenai
deriving DecidableEq

/-- The `.value` string of each `ModelType` member. -/
def ModelType.val : ModelType → String
  | .apiDeepseek => "api_deepseek"
  | .apiClaude => "api_claude"
  | .apiGemini => "api_gemini"
  | .apiOpenai => "api_openai"

/-- The cost-optimized fallback order `self.model_priority`. -/
def modelPriorityList : List ModelType :=
  [.apiDeepseek, .apiGemini, .apiClaude, .apiOpenai]

/-- The `ModelConfig` dataclass fields that generation and fallback read. -/
structure ModelCfg where
  enabled : Bool
  priority : Nat
  costPer1kTokens : ℚ
deriving DecidableEq

/-- The manager state `generate_response` reads: `models` are the ModelTypes
with a ready API provider (`self.models`), `configs` is `self.model_configs`. -/
structure APIState where
  models : List ModelType
  configs : ModelType → ModelCfg
  currentModel : Option ModelType
  fallbackEnabled : Bool

/-- The result dictionary a concrete API provider's `generate_response`
returns on success. -/
structure ApiGen where
  content : String
  model : String
  tokensUsed : Nat
  cost : ℚ
  provider : String
deriving DecidableEq

/-- The `LLMResponse` dataclass (`response_time` and `timestamp`, wall-clock
values, and the free-form `metadata` dict are omitted). -/
structure LLMResponse where
  content : String
  model : String
  modelType : ModelType
  tokensUsed : Nat
  cost : ℚ
  confidence : ℚ
  provider : String
deriving DecidableEq

/-- `APILLMManager._generate_with_model`: wrap a provider result into an
`LLMResponse` with confidence 90, re-raising provider failures. -/
def generateWithModel (api : ModelType → Except String ApiGen) (mt : ModelType) :
    Except String LLMResponse :=
  match api mt with
  | .ok r => .ok { content := r.content, model := r.model, modelType := mt,
                   tokensUsed := r.tokensUsed, cost := r.cost, confidence := 90,
                   provider := r.provider }
  | .error e => .error e

/-- `APILLMManager._try_fallback_models`: walk `model_priority`, skipping the
current model, models without a ready provider, and disabled configs; return
the first success, raising `All models failed` when the walk is exhausted. -/
def tryFallbackModels (st : APIState) (api : ModelType → Except String ApiGen) :
    List ModelType → Except String LLMResponse
  | [] => .error "All models failed"
  | mt :: rest =>
    if st.currentModel = some mt then tryFallbackModels st api rest
    else if mt ∉ st.models then tryFallbackModels st api rest
    else if (st.configs mt).enabled = false then tryFallbackModels st api rest
    else match generateWithModel api mt with
      | .ok r => .ok r
      | .error _ => tryFallbackModels st api rest

/-- Python's `", ".join`. -/
def joinComma : List String → String
  | [] => ""
  | [x] => x
  | x :: y :: xs => x ++ ", " ++ joinComma (y :: xs)

/-- Number of whitespace-separated words, as Python's `str.split()` counts
them. -/
def pyWordCount (s : String) : Nat :=
  ((s.split Char.isWhitespace).filter (fun t => t ≠ "")).length

/-- The error-recovery message text built by
`APILLMManager._create_error_response`. -/
def errorContent (st : APIState) (prompt error : String) : String :=
  "🤖 reVoAgent AI Assistant (Error Recovery Mode)\n\nI apologize, but I\x27m currently experiencing technical difficulties with all AI models.\n\nError: "
  ++ error
  ++ "\n\nYour prompt: \"" ++ prompt.take 100
  ++ "...\"\n\nI\x27m working to restore full functionality. Please try again in a moment, or contact support if the issue persists.\n\nAvailable models: "
  ++ joinComma (st.models.map ModelType.val)
  ++ "\nCurrent model: "
  ++ (match st.currentModel with
      | some m => m.val
      | none => "None")

/-- `APILLMManager._create_error_response`: the response returned when all
models fail, with model `error-recovery`, zero cost and zero confidence. -/
def createErrorResponse (st : APIState) (prompt error : String) : LLMResponse :=
  let c := errorContent st prompt error
  { content := c, model := "error-recovery", modelType := .apiGemini,
    tokensUsed := pyWordCount c, cost := 0, confidence := 0,
    provider := "error_recovery" }

/-- `APILLMManager.generate_response`: try the current model, then (when
fallback is enabled) the fallback walk; every raised exception is caught by the
outer handler, which returns `_create_error_response` instead of raising. -/
def apiGenerateResponse (st : APIState) (api : ModelType → Except String ApiGen)
    (prompt : String) : LLMResponse :=
  match st.currentModel with
  | some cm =>
    if cm ∈ st.models then
      match generateWithModel api cm with
      | .ok r => r
      | .error e =>
        if st.fallbackEnabled = true then
          match tryFallbackModels st api modelPriorityList with
          | .ok r => r
          | .error e2 => createErrorResponse st prompt e2
        else createErrorResponse st prompt e
    else
      match tryFallbackModels st api modelPriorityList with
      | .ok r => r
      | .error e => createErrorResponse st prompt e
  | none =>
    match tryFallbackModels st api modelPriorityList with
    | .ok r => r
    | .error e => createErrorResponse st prompt e

/-- `APILLMManager._select_optimal_model`: the first model of the hard-coded
cost-optimized walk `model_priority` that is enabled and has a ready provider;
when none qualifies, the first ready model in registration order if any (even
a disabled one), else no model (at its only call site, during `initialize`,
`current_model` is still `None` when this happens). -/
def apiSelectOptimalModel (st : APIState) : Option ModelType :=
  match modelPriorityList.find? (fun mt =>
      (st.configs mt).enabled = true ∧ mt ∈ st.models) with
  | some mt => some mt
  | none => st.models.head?

/-! ## Embedding of `EngineCoordinator` (src/packages/engines/engine_coordinator.py)

The coordinator is generic over the data (`σ`) and result (`ρ`) values that
flow between engines.  `run e d` is the outcome of
`_execute_single_engine(e, task_type, d)` — `Except.error msg` when the engine
invocation raises with message `msg`.  `outputData r` is the `output_data`
attribute of a result when present.  `enhance d e r` is
`_enhance_data_for_next_engine` for a successful response of engine `e`. -/

/-- The `EngineType` enum. -/
inductive EngineType
  | perfectRecall
  | parallelMind
  | creative
deriving DecidableEq

/-- The `.value` string of each `EngineType` member. -/
def EngineType.val : EngineType → String
  | .perfectRecall => "perfect_recall"
  | .parallelMind => "parallel_mind"
  | .creative => "creative"

/-- The `TaskComplexity` enum. -/
inductive TaskComplexity
  | simple
  | moderate
  | complex
  | enterprise
deriving DecidableEq

/-- The `.value` string of each `TaskComplexity` member. -/
def TaskComplexity.val : TaskComplexity → String
  | .simple => "simple"
  | .moderate => "moderate"
  | .complex => "complex"
  | .enterprise => "enterprise"

/-- The `CoordinatedRequest` dataclass (`timeout_seconds` omitted:
wall-clock). -/
structure CoordinatedRequest (σ : Type) where
  taskId : String
  taskType : String
  description : String
  inputData : σ
  complexity : TaskComplexity
  requiredEngines : List EngineType
  coordinationStrategy : String

/-- The `EngineResponse` dataclass (`execution_time_ms`, a wall-clock value,
omitted); `metadata` keeps the string-valued dict entries the coordinator
writes. -/
structure EngineResponse (ρ : Type) where
  engineType : EngineType
  success : Bool
  result : Option ρ
  metadata : List (String × String)
deriving DecidableEq

/-- `EngineCoordinator._execute_sequential`: run the required engines in order
(skipping unregistered ones), passing `result.output_data` forward on success
and leaving the data unchanged on failure; `ord` counts responses so far for
the `execution_order` metadata. -/
def executeSequential {σ ρ : Type} (registered : List EngineType)
    (run : EngineType → σ → Except String ρ) (outputData : ρ → Option σ) :
    List EngineType → σ → Nat → List (EngineResponse ρ)
  | [], _, _ => []
  | e :: es, data, ord =>
    if e ∈ registered then
      match run e data with
      | .ok r =>
        { engineType := e, success := true, result := some r,
          metadata := [("execution_order", toString (ord + 1))] } ::
        executeSequential registered run outputData es
          (match outputData r with
           | some d => d
           | none => data) (ord + 1)
      | .error msg =>
        { engineType := e, success := false, result := none,
          metadata := [("error", msg)] } ::
        executeSequential registered run outputData es data (ord + 1)
    else executeSequential registered run outputData es data ord

/-- `EngineCoordinator._execute_engine_with_timing`: wrap a single engine
invocation, converting a raised exception into a failed response with the
error recorded in the metadata. -/
def engineWithTiming {σ ρ : Type} (run : EngineType → σ → Except String ρ)
    (taskType : String) (e : EngineType) (data : σ) : EngineResponse ρ :=
  match run e data with
  | .ok r =>
    { engineType := e, success := true, result := some r,
      metadata := [("task_type", taskType)] }
  | .error msg =>
    { engineType := e, success := false, result := none,
      metadata := [("error", msg), ("task_type", taskType)] }

/-- `EngineCoordinator._execute_parallel`: launch every registered required
engine against the same input data and join all responses (the
`asyncio.gather` of independent tasks). -/
def executeParallel {σ ρ : Type} (registered : List EngineType)
    (run : EngineType → σ → Except String ρ) (taskType : String)
    (engines : List EngineType) (data : σ) : List (EngineResponse ρ) :=
  (engines.filter (fun e => e ∈ registered)).map
    (fun e => engineWithTiming run taskType e data)

/-- The analysis dictionary `_analyze_task_for_optimal_engines` builds (the
dead `+=` bumps to `complexity_score`, overwritten unconditionally by the
complexity-enum mapping, are not carried). -/
structure TaskAnalysis where
  requiresMemory : Bool
  requiresParallel : Bool
  requiresCreativity : Bool
  complexityScore : ℚ
  enginePriorities : List (EngineType × ℚ)

/-- Keyword test over a lowercased description and task type, as
`any(keyword in description or keyword in task_type for keyword in kws)`. -/
def keywordHit (description taskType : String) (kws : List String) : Bool :=
  kws.any (fun k => containsSub description k ∨ containsSub taskType k)

/-- The memory-cue keyword list of `_analyze_task_for_optimal_engines`. -/
def memoryKeywords : List String :=
  ["remember", "recall", "history", "context", "previous", "stored", "knowledge"]

/-- The parallel-cue keyword list. -/
def parallelKeywords : List String :=
  ["parallel", "concurrent", "multiple", "batch", "bulk", "simultaneous"]

/-- The creativity-cue keyword list. -/
def creativeKeywords : List String :=
  ["creative", "innovative", "generate", "design", "brainstorm", "novel", "unique"]

/-- `EngineCoordinator._analyze_task_for_optimal_engines`: keyword flags, the
complexity-enum score, and the engine-priority list (built in descending
score order 0.9, 0.8, 0.7, which is what the descending sort produces). -/
def analyzeTask {σ : Type} (req : CoordinatedRequest σ) : TaskAnalysis :=
  let d := req.description.toLower
  let t := req.taskType.toLower
  let rm := keywordHit d t memoryKeywords
  let rp := keywordHit d t parallelKeywords
  let rc := keywordHit d t creativeKeywords
  { requiresMemory := rm, requiresParallel := rp, requiresCreativity := rc,
    complexityScore :=
      match req.complexity with
      | .enterprise => mkRat 9 10
      | .complex => mkRat 7 10
      | .moderate => mkRat 5 10
      | .simple => mkRat 3 10,
    enginePriorities :=
      (if rm then [(EngineType.perfectRecall, mkRat 9 10)] else []) ++
      (if rp then [(EngineType.parallelMind, mkRat 8 10)] else []) ++
      (if rc then [(EngineType.creative, mkRat 7 10)] else []) }

/-- One step of the adaptive execution plan. -/
structure PlanStep where
  engine : EngineType
  mode : String
  enhanceNext : Bool

/-- `EngineCoordinator._create_optimal_execution_plan`: high complexity gives
the sequential Recall, Parallel, Creative pipeline with context enhancement;
parallel-plus-creative gives the two engines in parallel mode; otherwise the
priority list in sequential mode. -/
def createExecutionPlan (a : TaskAnalysis) : List PlanStep :=
  if a.complexityScore > mkRat 7 10 then
    (if a.enginePriorities.any (fun p => p.1 = EngineType.perfectRecall) then
      [{ engine := .perfectRecall, mode := "sequential", enhanceNext := true }] else []) ++
    (if a.enginePriorities.any (fun p => p.1 = EngineType.parallelMind) then
      [{ engine := .parallelMind, mode := "sequential", enhanceNext := true }] else []) ++
    (if a.enginePriorities.any (fun p => p.1 = EngineType.creative) then
      [{ engine := .creative, mode := "sequential", enhanceNext := false }] else [])
  else if a.requiresParallel = true ∧ a.requiresCreativity = true then
    (if a.enginePriorities.any (fun p => p.1 = EngineType.parallelMind) then
      [{ engine := .parallelMind, mode := "parallel", enhanceNext := false }] else []) ++
    (if a.enginePriorities.any (fun p => p.1 = EngineType.creative) then
      [{ engine := .creative, mode := "parallel", enhanceNext := false }] else [])
  else
    a.enginePriorities.map (fun p =>
      { engine := p.1, mode := "sequential", enhanceNext := true })

/-- The step loop of `_execute_adaptive`: run each planned step whose engine is
required (no conditional steps are ever planned), enhancing the data for the
next step after a successful step marked `enhance_next`. -/
def execAdaptiveSteps {σ ρ : Type} (run : EngineType → σ → Except String ρ)
    (enhance : σ → EngineType → ρ → σ) (required : List EngineType)
    (taskType : String) : List PlanStep → σ → List (EngineResponse ρ)
  | [], _ => []
  | step :: rest, data =>
    if step.engine ∈ required then
      let resp := engineWithTiming run taskType step.engine data
      let nextData :=
        if resp.success = true ∧ step.enhanceNext = true then
          match resp.result with
          | some r => enhance data step.engine r
          | none => data
        else data
      resp :: execAdaptiveSteps run enhance required taskType rest nextData
    else execAdaptiveSteps run enhance required taskType rest data

/-- `EngineCoordinator._execute_adaptive` (the final
`_optimize_engine_responses` pass returns its input unchanged). -/
def executeAdaptive {σ ρ : Type} (run : EngineType → σ → Except String ρ)
    (enhance : σ → EngineType → ρ → σ) (req : CoordinatedRequest σ) :
    List (EngineResponse ρ) :=
  execAdaptiveSteps run enhance req.requiredEngines req.taskType
    (createExecutionPlan (analyzeTask req)) req.inputData

/-- Last successful result of a given engine type, as the overwrite loop of
`_synthesize_creative_debugging` computes it. -/
def lastOfType {ρ : Type} (rs : List (EngineResponse ρ)) (e : EngineType) : Option ρ :=
  rs.foldl (fun acc r => if r.engineType = e then r.result else acc) none

/-- The primary result `_synthesize_results` produces: the task-type-specific
merges keep the components each branch extracts; `defaultMerge` keys results by
engine type with `primarySource` the first successful engine. -/
inductive SynthResult (ρ : Type)
  | allEnginesFailed (taskId : String)
  | creativeDebugging (recallData parallelAnalysis creativeSolutions : Option ρ)
  | comprehensiveAnalysis (insights : List (EngineType × Option ρ)) (recommendations : List String)
  | intelligentGeneration (components : List (EngineType × Option ρ))
  | defaultMerge (individual : List (EngineType × Option ρ)) (primarySource : EngineType)
deriving DecidableEq

/-- `EngineCoordinator._generate_recommendations`. -/
def generateRecommendations {ρ : Type} (rs : List (EngineResponse ρ)) : List String :=
  rs.map (fun r =>
    match r.engineType with
    | .creative => "Consider innovative approaches"
    | .parallelMind => "Leverage parallel processing capabilities"
    | .perfectRecall => "Utilize historical context and patterns")

/-- `EngineCoordinator._synthesize_results`. -/
def synthesizeResults {σ ρ : Type} (req : CoordinatedRequest σ)
    (responses : List (EngineResponse ρ)) : SynthResult ρ :=
  match responses.filter (fun r => r.success = true) with
  | [] => .allEnginesFailed req.taskId
  | s0 :: succRest =>
    let succ := s0 :: succRest
    if req.taskType = "creative_debugging" then
      .creativeDebugging (lastOfType succ .perfectRecall)
        (lastOfType succ .parallelMind) (lastOfType succ .creative)
    else if req.taskType = "comprehensive_analysis" then
      .comprehensiveAnalysis (succ.map (fun r => (r.engineType, r.result)))
        (generateRecommendations succ)
    else if req.taskType = "intelligent_generation" then
      .intelligentGeneration (succ.map (fun r => (r.engineType, r.result)))
    else
      .defaultMerge (succ.map (fun r => (r.engineType, r.result))) s0.engineType

/-- The `coordination_summary` dictionary (`avg_engine_time`, wall-clock,
omitted). -/
structure CoordinationSummary where
  strategyUsed : String
  enginesUtilized : List String
  totalEngines : Nat
  successRate : ℚ
  complexityHandled : String
deriving DecidableEq

/-- The `CoordinatedResponse` dataclass (`total_execution_time_ms` omitted:
wall-clock). -/
structure CoordinatedResponse (ρ : Type) where
  taskId : String
  success : Bool
  primaryResult : SynthResult ρ
  engineResponses : List (EngineResponse ρ)
  coordinationSummary : CoordinationSummary
deriving DecidableEq

/-- Strategy dispatch of `execute_coordinated_task`: unknown strategy strings
fall back to adaptive execution. -/
def runStrategy {σ ρ : Type} (registered : List EngineType)
    (run : EngineType → σ → Except String ρ) (outputData : ρ → Option σ)
    (enhance : σ → EngineType → ρ → σ) (req : CoordinatedRequest σ) :
    List (EngineResponse ρ) :=
  if req.coordinationStrategy = "sequential" then
    executeSequential registered run outputData req.requiredEngines req.inputData 0
  else if req.coordinationStrategy = "parallel" then
    executeParallel registered run req.taskType req.requiredEngines req.inputData
  else executeAdaptive run enhance req

/-- `EngineCoordinator.execute_coordinated_task`: run the strategy, synthesize,
and return a `CoordinatedResponse` whose `success` is `any(r.success)`; with no
engine responses the summary's success-rate division raises
`ZeroDivisionError`, which the method re-raises (`Except.error`). -/
def executeCoordinatedTask {σ ρ : Type} (registered : List EngineType)
    (run : EngineType → σ → Except String ρ) (outputData : ρ → Option σ)
    (enhance : σ → EngineType → ρ → σ) (req : CoordinatedRequest σ) :
    Except String (CoordinatedResponse ρ) :=
  let responses := runStrategy registered run outputData enhance req
  if responses.isEmpty then .error "ZeroDivisionError: division by zero"
  else
    .ok { taskId := req.taskId,
          success := responses.any (fun r => r.success),
          primaryResult := synthesizeResults req responses,
          engineResponses := responses,
          coordinationSummary :=
            { strategyUsed := req.coordinationStrategy,
              enginesUtilized := responses.map (fun r => r.engineType.val),
              totalEngines := responses.length,
              successRate :=
                ((responses.filter (fun r => r.success = true)).length : ℚ) / responses.length,
              complexityHandled := req.complexity.val } }

/-! ## Embedding of `LLMManagerEnhanced._update_stats`
(src/src/revoagent/ai/llm_manager_enhanced.py) -/

/-- The stats fields `_update_stats` touches. -/
structure EnhancedStats where
  successfulRequests : Nat
  failedRequests : Nat
  averageLatency : ℚ
deriving DecidableEq

/-- `LLMManagerEnhanced._update_stats`: bump the success or failure counter,
then fold the latency into the running average over all recorded calls. -/
def updateStats (s : EnhancedStats) (success : Bool) (latency : ℚ) : EnhancedStats :=
  let s1 :=
    if success = true then { s with successfulRequests := s.successfulRequests + 1 }
    else { s with failedRequests := s.failedRequests + 1 }
  let total := s1.successfulRequests + s1.failedRequests
  if 0 < total then
    { s1 with averageLatency :=
        (s1.averageLatency * ((total : ℚ) - 1) + latency) / (total : ℚ) }
  else s1

/-- The zeroed stats dictionary `LLMManagerEnhanced.__init__` installs. -/
def initialStats : EnhancedStats :=
  { successfulRequests := 0, failedRequests := 0, averageLatency := 0 }

/-- A sequence of successful calls with the given latencies, recorded through
`_update_stats`. -/
def recordSuccesses (s : EnhancedStats) (ls : List ℚ) : EnhancedStats :=
  ls.foldl (fun acc l => updateStats acc true l) s

/-! ## Concrete fixtures used by counterexamples and witnesses -/

/-- A minimal initialized fallback-manager state: fallback system enabled,
`degrade` terminal strategy, no configured local models, API fallbacks or
routing rules, 50 percent memory use, and collaborators that know no models. -/
def envBase : FMEnv :=
  { enabled := true, localModels := [], apiPrimary := none, apiSecondary := [],
    routingContent := [], lowMemoryPreferred := [], bridgeModels := [],
    managerStatus := fun _ => none, memPercent := 50,
    reSearch := fun _ _ => false, strategy := "degrade" }

/-- A fallback-manager state with two registered local models and one
configured primary API fallback named `gpt`. -/
def envC8 : FMEnv :=
  { envBase with localModels := ["cpu_opt", "other_local"],
                 apiPrimary := some { modelName := "gpt", priority := 1 } }

/-- A generation attempt that always fails, with the stringified exception
recording the model name. -/
def tgFail : String → Except String String :=
  fun m => .error ("fail:" ++ m)

/-- A bridge call that is never reached in the enabled-manager scenarios. -/
def bgUnused : String → Except String String :=
  fun _ => .error "unused"

/-- The ordering property claimed of `get_fallback_chain` (stated from the
spec's words, for comparison with the source chain): backends of the same kind
as the original — local when the original is local — occupy a prefix of the
chain, before every backend of the other kind. -/
def SameKindFirst (e : FMEnv) (original : String) (chain : List String) : Prop :=
  ∀ i j : Fin chain.length, (i : Nat) < (j : Nat) →
    (decide (chain.get j ∈ e.localModels) = decide (original ∈ e.localModels)) →
    (decide (chain.get i ∈ e.localModels) = decide (original ∈ e.localModels))

/-- A hardware profile comfortably above every local-model threshold. -/
def hwGood : HardwareProfile := mkHardwareProfile 4 2 16 false 0

/-- A low-end hardware profile: 2 cores, 1 GHz, 2 GB RAM, no GPU. -/
def hwLow : HardwareProfile := mkHardwareProfile 2 1 2 false 0

/-- A 4 GB RAM profile (spec scenario B). -/
def hw4 : HardwareProfile := mkHardwareProfile 4 2 4 false 0

/-- A local provider config with priority 1 and modest requirements. -/
def cfgLocal1 : LLMConfig :=
  { provider := .deepseekLocal, modelName := "local", apiKey := none,
    costPerRequest := 0, requiresGpu := false, minRamGb := 4, priority := 1 }

/-- The FALLBACK provider config registered by `_initialize_providers`
(dataclass default `min_ram_gb=4.0` applies since the constructor call does not
set it). -/
def cfgFallback10 : LLMConfig :=
  { provider := .fallback, modelName := "enhanced-template", apiKey := none,
    costPerRequest := 0, requiresGpu := false, minRamGb := 4, priority := 10 }

/-- A backend config requiring 8 GB RAM (spec scenario B). -/
def cfg8 : LLMConfig :=
  { provider := .deepseekLocal, modelName := "big-local", apiKey := none,
    costPerRequest := 0, requiresGpu := false, minRamGb := 8, priority := 1 }

/-- Manager state with two usable providers and a user preference for the
higher-priority-value FALLBACK provider. -/
def stPref : OptState :=
  { hardware := hwGood,
    availableProviders := [(LLMProvider.deepseekLocal, cfgLocal1),
                           (LLMProvider.fallback, cfgFallback10)],
    userPreference := some .fallback }

/-- The same provider table with no user preference set. -/
def stNoPref : OptState :=
  { hardware := hwGood,
    availableProviders := [(LLMProvider.deepseekLocal, cfgLocal1),
                           (LLMProvider.fallback, cfgFallback10)],
    userPreference := none }

/-- Manager state on the low-end profile with the full default provider table
and no API keys: no provider passes `_can_use_provider`. -/
def lowRamState : OptState :=
  { hardware := hwLow,
    availableProviders := initializeProviders hwLow none none none none,
    userPreference := none }

/-- Manager state carrying the 4 GB profile (spec scenario B). -/
def st4 : OptState :=
  { hardware := hw4, availableProviders := [(LLMProvider.deepseekLocal, cfg8)],
    userPreference := none }

/-- An API-manager state with one ready, enabled model currently selected. -/
def stApi : APIState :=
  { models := [.apiDeepseek],
    configs := fun _ => { enabled := true, priority := 1, costPer1kTokens := 0 },
    currentModel := some .apiDeepseek, fallbackEnabled := true }

/-- An API call that always fails. -/
def apiFailFn : ModelType → Except String ApiGen :=
  fun _ => .error "connection refused"

/-- `APILLMManager._get_default_configs`: the shipped model configurations,
whose priority values 1, 2, 3, 4 agree with the hard-coded `model_priority`
walk order (OpenAI disabled by default). -/
def apiDefaultConfigs : ModelType → ModelCfg
  | .apiDeepseek => { enabled := true, priority := 1, costPer1kTokens := mkRat 14 10000 }
  | .apiGemini => { enabled := true, priority := 2, costPer1kTokens := mkRat 75 10000 }
  | .apiClaude => { enabled := true, priority := 3, costPer1kTokens := mkRat 125 10000 }
  | .apiOpenai => { enabled := false, priority := 4, costPer1kTokens := mkRat 15 1000 }

/-- An API-manager state with the default configs and two ready models,
Claude and Gemini (registration order), both enabled. -/
def apiStW : APIState :=
  { models := [.apiClaude, .apiGemini], configs := apiDefaultConfigs,
    currentModel := none, fallbackEnabled := true }

/-- Coordinator fixture: Perfect Recall and Creative registered. -/
def registeredW : List EngineType := [.perfectRecall, .creative]

/-- Coordinator fixture over `Nat` data and results: Perfect Recall raises,
every other engine succeeds with `data + 1`. -/
def runW : EngineType → Nat → Except String Nat :=
  fun e d =>
    match e with
    | .perfectRecall => .error "boom"
    | _ => .ok (d + 1)

/-- Coordinator fixture: results carry no `output_data` attribute. -/
def outDataW : Nat → Option Nat := fun _ => none

/-- Coordinator fixture: context enhancement leaves the data unchanged. -/
def enhanceW : Nat → EngineType → Nat → Nat := fun d _ _ => d

/-- A sequential coordinated request requiring Recall then Creative
(spec scenario C). -/
def reqW : CoordinatedRequest Nat :=
  { taskId := "t1", taskType := "general", description := "desc", inputData := 0,
    complexity := .simple, requiredEngines := [.perfectRecall, .creative],
    coordinationStrategy := "sequential" }

/-! ## General lemmas about the chain deduplication -/

theorem mem_dedupAux (seen : List String) (l : List String) (x : String) :
    x ∈ dedupAux seen l ↔ x ∈ l ∧ x ∉ seen := by
  induction l generalizing seen with
  | nil => simp [dedupAux]
  | cons y ys ih =>
    by_cases hy : y ∈ seen
    · simp only [dedupAux, if_pos hy, ih, List.mem_cons]
      constructor
      · rintro ⟨h1, h2⟩; exact ⟨Or.inr h1, h2⟩
      · rintro ⟨h1 | h1, h2⟩
        · subst h1; exact absurd hy h2
        · exact ⟨h1, h2⟩
    · simp only [dedupAux, if_neg hy, List.mem_cons, ih]
      constructor
      · rintro (h | ⟨h1, h2⟩)
        · subst h; exact ⟨Or.inl rfl, hy⟩
        · exact ⟨Or.inr h1, fun hc => h2 (Or.inr hc)⟩
      · rintro ⟨h1 | h1, h2⟩
        · exact Or.inl h1
        · by_cases hxy : x = y
          · exact Or.inl hxy
          · exact Or.inr ⟨h1, fun hc => by
              rcases hc with h | h
              · exact hxy h
              · exact h2 h⟩

theorem nodup_dedupAux (seen : List String) (l : List String) :
    (dedupAux seen l).Nodup := by
  induction l generalizing seen with
  | nil => simp [dedupAux]
  | cons y ys ih =>
    by_cases hy : y ∈ seen
    · simpa [dedupAux, if_pos hy] using ih seen
    · simp only [dedupAux, if_neg hy]
      refine List.nodup_cons.mpr ⟨fun hc => ?_, ih (y :: seen)⟩
      exact ((mem_dedupAux _ _ _).mp hc).2 (List.mem_cons_self _ _)

theorem dedupAux_append (seen : List String) (a b : List String) :
    dedupAux seen (a ++ b) = dedupAux seen a ++ dedupAux (seenAfter seen a) b := by
  induction a generalizing seen with
  | nil => simp [dedupAux, seenAfter]
  | cons x xs ih =>
    by_cases hx : x ∈ seen
    · simp [dedupAux, seenAfter, if_pos hx, ih]
    · simp [dedupAux, seenAfter, if_neg hx, ih]

/-! ## Lemmas about the fallback chain and loop -/

theorem getFallbackChain_nodup (e : FMEnv) (m : String) :
    (getFallbackChain e m).Nodup :=
  nodup_dedupAux [] (rawFallbackChain e m)

theorem mem_getFallbackChain (e : FMEnv) (m x : String) :
    x ∈ getFallbackChain e m ↔ x ∈ rawFallbackChain e m := by
  simp [getFallbackChain, dedupFirst, mem_dedupAux]

theorem primary_mem_chain (e : FMEnv) (m : String) (h : m ∈ getFallbackChain e m) :
    m = "deepseek-r1" ∨ (m ∈ e.localModels ∧ m ∈ apiFallbackNames e) := by
  rw [mem_getFallbackChain] at h
  unfold rawFallbackChain at h
  by_cases hl : m ∈ e.localModels
  · rw [if_pos hl] at h
    simp only [List.mem_append, List.mem_filter, List.mem_singleton] at h
    rcases h with (hapi | ⟨_, hne⟩) | hd
    · exact Or.inr ⟨hl, hapi⟩
    · simp at hne
    · exact Or.inl hd
  · rw [if_neg hl] at h
    simp only [List.mem_append, List.mem_filter, List.mem_singleton] at h
    rcases h with (⟨_, hne⟩ | hloc) | hd
    · simp at hne
    · exact absurd hloc hl
    · exact Or.inl hd

theorem triedModels_subset (t : String → Except String String) (l : List String) :
    ∀ x ∈ triedModels t l, x ∈ l := by
  induction l with
  | nil => intro x hx; simp [triedModels] at hx
  | cons m ms ih =>
    intro x hx
    unfold triedModels at hx
    cases ht : t m with
    | ok r =>
      rw [ht] at hx
      simp only [List.mem_singleton] at hx
      exact hx ▸ List.mem_cons_self _ _
    | error msg =>
      rw [ht] at hx
      rcases List.mem_cons.mp hx with h | h
      · exact h ▸ List.mem_cons_self _ _
      · exact List.mem_cons_of_mem _ (ih x h)

theorem triedModels_length_le (t : String → Except String String) (l : List String) :
    (triedModels t l).length ≤ l.length := by
  induction l with
  | nil => simp [triedModels]
  | cons m ms ih =>
    unfold triedModels
    cases t m with
    | ok r => simp
    | error msg => simpa using ih

theorem triedModels_nodup (t : String → Except String String) (l : List String)
    (h : l.Nodup) : (triedModels t l).Nodup := by
  induction l with
  | nil => simp [triedModels]
  | cons m ms ih =>
    obtain ⟨hm, hms⟩ := List.nodup_cons.mp h
    unfold triedModels
    cases t m with
    | ok r => simp
    | error msg =>
      exact List.nodup_cons.mpr
        ⟨fun hc => hm (triedModels_subset t ms m hc), ih hms⟩

theorem tryChain_none (tryGen : String → Except String String) (err : String → String)
    (hfail : ∀ m, tryGen m = .error (err m)) :
    ∀ l, tryChain tryGen l = none := by
  intro l
  induction l with
  | nil => rfl
  | cons m ms ih => simp [tryChain, hfail m, ih]

/-! ## Claim C1 -/

/-- C1: when the fallback system is enabled and every backend (the selected
primary and every fallback-chain candidate) fails, `generate_with_fallback`
under the `degrade` terminal strategy returns (never raises) the fixed degraded
notice whose metadata is explicitly marked (`model = "degraded"`,
`fallback_success = false`, the primary error recorded) — never fabricated
success; under the `propagate` strategy it raises the primary failure's
error. -/
theorem degrade_marks_propagate_raises (e : FMEnv)
    (bridgeGen tryGen : String → Except String String) (message model0 : String)
    (err : String → String) (he : e.enabled = true)
    (hfail : ∀ m, tryGen m = .error (err m)) :
    (e.strategy = "degrade" →
      generateWithFallback e bridgeGen tryGen message model0
        = .ok (degradedResponseText,
            { model := "degraded",
              originalModel := some (selectOptimalModel e message model0),
              fallbackUsed := true, fallbackReason := none,
              fallbackSuccess := some false,
              errorMsg := some (err (selectOptimalModel e message model0)) }))
    ∧ (e.strategy = "propagate" →
      generateWithFallback e bridgeGen tryGen message model0
        = .error (err (selectOptimalModel e message model0))) := by
  constructor <;> intro hs <;>
    simp [generateWithFallback, he, hfail, tryChain_none tryGen err hfail, hs]

/-- C1 witness: in the concrete all-failing environment with the `degrade`
strategy, the call returns the marked degraded result. -/
theorem degrade_marks_witness :
    envBase.enabled = true
    ∧ generateWithFallback envBase bgUnused tgFail "hello" "m"
        = .ok (degradedResponseText,
            { model := "degraded", originalModel := some "m",
              fallbackUsed := true, fallbackReason := none,
              fallbackSuccess := some false, errorMsg := some "fail:m" }) :=
  ⟨rfl,
   (degrade_marks_propagate_raises envBase bgUnused tgFail "hello" "m"
     (fun m => "fail:" ++ m) rfl (fun _ => rfl)).1 rfl⟩

/-! ## Claim C2 -/

/-- C2 counterexample: with no configured fallbacks, a failing primary model
named `deepseek-r1` (the hard-coded last resort unconditionally appended by
`get_fallback_chain`) is re-invoked by the fallback loop, so one `generate`
call invokes the failed primary backend twice. -/
theorem fallback_retries_failed_primary :
    generateTrace envBase (fun _ => .error "boom") "hello" "deepseek-r1"
      = ["deepseek-r1", "deepseek-r1"]
    ∧ ¬ (generateTrace envBase (fun _ => .error "boom") "hello" "deepseek-r1").Nodup := by
  refine ⟨rfl, ?_⟩
  intro h
  rw [show generateTrace envBase (fun _ => .error "boom") "hello" "deepseek-r1"
        = ["deepseek-r1", "deepseek-r1"] from rfl] at h
  simp at h

/-- C2 (amended): after the selected primary fails, a single
`generate_with_fallback` call invokes each fallback candidate at most once —
the invoked fallbacks form a duplicate-free sublist of the (deduplicated)
chain, so at most `len(chain)` fallbacks are tried — and the failed primary is
re-invoked only when it is the hard-coded last resort `deepseek-r1`, or when it
is a registered local model whose id also occurs among the configured API
fallback model names.  (The chain is built from configuration, not from live
Available status.) -/
theorem fallback_attempts_distinct (e : FMEnv)
    (tryGen : String → Except String String) (message model0 : String)
    (primaryErr : String) (he : e.enabled = true)
    (hfail : tryGen (selectOptimalModel e message model0) = .error primaryErr) :
    generateTrace e tryGen message model0
      = selectOptimalModel e message model0
        :: triedModels tryGen (getFallbackChain e (selectOptimalModel e message model0))
    ∧ (triedModels tryGen (getFallbackChain e (selectOptimalModel e message model0))).Nodup
    ∧ (triedModels tryGen (getFallbackChain e (selectOptimalModel e message model0))).length
        ≤ (getFallbackChain e (selectOptimalModel e message model0)).length
    ∧ (∀ x ∈ triedModels tryGen (getFallbackChain e (selectOptimalModel e message model0)),
        x ∈ getFallbackChain e (selectOptimalModel e message model0))
    ∧ (selectOptimalModel e message model0
          ∈ triedModels tryGen (getFallbackChain e (selectOptimalModel e message model0)) →
        selectOptimalModel e message model0 = "deepseek-r1"
        ∨ (selectOptimalModel e message model0 ∈ e.localModels
           ∧ selectOptimalModel e message model0 ∈ apiFallbackNames e)) := by
  refine ⟨?_, ?_, ?_, ?_, ?_⟩
  · simp [generateTrace, he, hfail]
  · exact triedModels_nodup _ _ (getFallbackChain_nodup _ _)
  · exact triedModels_length_le _ _
  · exact triedModels_subset _ _
  · intro hmem
    exact primary_mem_chain e _ (triedModels_subset _ _ _ hmem)

/-- C2 witness: concrete instantiation of the amended statement for a primary
model `m` failing in the base environment. -/
theorem fallback_attempts_distinct_witness :
    envBase.enabled = true
    ∧ generateTrace envBase tgFail "hello" "m" = ["m", "deepseek-r1"]
    ∧ (triedModels tgFail (getFallbackChain envBase "m")).Nodup :=
  ⟨rfl,
   (fallback_attempts_distinct envBase tgFail "hello" "m" "fail:m" rfl rfl).1,
   (fallback_attempts_distinct envBase tgFail "hello" "m" "fail:m" rfl rfl).2.1⟩

/-! ## Claim C3 -/

theorem firstAvailable_available (e : FMEnv) (l : List String) (m : String)
    (h : firstAvailable e l = some m) : isModelAvailable e m = true := by
  induction l with
  | nil => simp [firstAvailable] at h
  | cons x xs ih =>
    unfold firstAvailable at h
    by_cases hx : isModelAvailable e x = true
    · rw [if_pos hx] at h
      cases h
      exact hx
    · rw [if_neg hx] at h
      exact ih h

theorem contentRoute_available (e : FMEnv) (message : String)
    (rules : List ContentRule) (m : String)
    (h : contentRoute e message rules = some m) : isModelAvailable e m = true := by
  induction rules with
  | nil => simp [contentRoute] at h
  | cons r rs ih =>
    unfold contentRoute at h
    by_cases hc : r.pattern ≠ "" ∧ e.reSearch r.pattern message
    · rw [if_pos hc] at h
      cases hfa : firstAvailable e r.preferredModels with
      | some m2 =>
        rw [hfa] at h
        cases h
        exact firstAvailable_available e _ _ hfa
      | none =>
        rw [hfa] at h
        exact ih h
    · rw [if_neg hc] at h
      exact ih h

/-- C3 counterexample: with no routing rule matching, `select_optimal_model`
returns the caller's original model `ghost` unchanged even though no subsystem
knows a model of that name, i.e. selection returns a backend that is not
Available. -/
theorem select_returns_unavailable_model :
    selectOptimalModel envBase "hello" "ghost" = "ghost"
    ∧ isModelAvailable envBase "ghost" = false :=
  ⟨rfl, rfl⟩

/-- C3 (amended): `select_optimal_model` checks availability only when a
content-based or resource-based routing rule picks the model; on every other
path it returns the caller's original model unchanged, with no availability
check.  Hence every selected model is either the original request model or one
that passes `_is_model_available`. -/
theorem select_original_or_available (e : FMEnv) (message model0 : String) :
    selectOptimalModel e message model0 = model0
    ∨ isModelAvailable e (selectOptimalModel e message model0) = true := by
  unfold selectOptimalModel
  by_cases hen : e.enabled = false
  · rw [if_pos hen]
    exact Or.inl rfl
  · rw [if_neg hen]
    cases hcr : contentRoute e message e.routingContent with
    | some m =>
      exact Or.inr (contentRoute_available e message _ m hcr)
    | none =>
      by_cases hlm : checkLowMemoryMode e = true
      · rw [if_pos hlm]
        cases hfa : firstAvailable e e.lowMemoryPreferred with
        | some m => exact Or.inr (firstAvailable_available e _ m hfa)
        | none => exact Or.inl rfl
      · rw [if_neg hlm]
        exact Or.inl rfl

/-! ## Claim C8 -/

/-- C8 counterexample: for the local original `cpu_opt`, the chain starts with
the API fallback `gpt` while the same-kind (local) backend `other_local` comes
only second — the chain is not ordered same-kind-first. -/
theorem fallback_chain_not_same_kind_first :
    getFallbackChain envC8 "cpu_opt" = ["gpt", "other_local", "deepseek-r1"]
    ∧ ¬ SameKindFirst envC8 "cpu_opt" (getFallbackChain envC8 "cpu_opt") := by
  constructor
  · rfl
  · unfold SameKindFirst
    decide

/-- C8 (amended): for a failed local original, `get_fallback_chain` returns the
configured API fallbacks (primary first, then the priority-sorted secondaries)
followed by the other registered local models and the hard-coded last resort
`deepseek-r1` — backends of the other kind first, not same-kind first — with
duplicates removed keeping first occurrences, and with no live Available-status
filtering: the chain is duplicate-free, its members are exactly the API
fallback names, the other local models and `deepseek-r1`, and every API
fallback entry precedes every non-API entry. -/
theorem fallback_chain_structure (e : FMEnv) (original : String)
    (h : original ∈ e.localModels) :
    (getFallbackChain e original).Nodup
    ∧ (∀ x, x ∈ getFallbackChain e original
         ↔ (x ∈ apiFallbackNames e ∨ (x ∈ e.localModels ∧ x ≠ original)
            ∨ x = "deepseek-r1"))
    ∧ ∃ pre post, getFallbackChain e original = pre ++ post
        ∧ (∀ x ∈ pre, x ∈ apiFallbackNames e)
        ∧ (∀ y ∈ post, (y ∈ e.localModels ∧ y ≠ original) ∨ y = "deepseek-r1") := by
  refine ⟨getFallbackChain_nodup e original, ?_, ?_⟩
  · intro x
    rw [mem_getFallbackChain]
    unfold rawFallbackChain
    rw [if_pos h]
    simp only [List.mem_append, List.mem_filter, List.mem_singleton, decide_eq_true_eq]
    tauto
  · have hraw : rawFallbackChain e original
        = apiFallbackNames e
          ++ (e.localModels.filter (fun m => m ≠ original) ++ ["deepseek-r1"]) := by
      unfold rawFallbackChain
      rw [if_pos h, List.append_assoc]
    refine ⟨dedupAux [] (apiFallbackNames e),
            dedupAux (seenAfter [] (apiFallbackNames e))
              (e.localModels.filter (fun m => m ≠ original) ++ ["deepseek-r1"]),
            ?_, ?_, ?_⟩
    · rw [getFallbackChain, dedupFirst, hraw, dedupAux_append]
    · intro x hx
      exact ((mem_dedupAux _ _ _).mp hx).1
    · intro y hy
      have hmem := ((mem_dedupAux _ _ _).mp hy).1
      simp only [List.mem_append, List.mem_filter, List.mem_singleton,
        decide_eq_true_eq] at hmem
      tauto

/-- C8 witness: the amended structure at the concrete two-local-model
environment. -/
theorem fallback_chain_structure_witness :
    "cpu_opt" ∈ envC8.localModels
    ∧ (getFallbackChain envC8 "cpu_opt").Nodup
    ∧ ("other_local" ∈ getFallbackChain envC8 "cpu_opt"
        ↔ ("other_local" ∈ apiFallbackNames envC8
           ∨ ("other_local" ∈ envC8.localModels ∧ "other_local" ≠ "cpu_opt")
           ∨ "other_local" = "deepseek-r1")) :=
  ⟨by decide,
   (fallback_chain_structure envC8 "cpu_opt" (by decide)).1,
   (fallback_chain_structure envC8 "cpu_opt" (by decide)).2.1 "other_local"⟩

/-! ## Lemmas about provider sorting and the selection loop -/

theorem mem_insertByPriority (x y : LLMProvider × LLMConfig)
    (l : List (LLMProvider × LLMConfig)) :
    y ∈ insertByPriority x l ↔ y = x ∨ y ∈ l := by
  induction l with
  | nil => simp [insertByPriority]
  | cons z zs ih =>
    unfold insertByPriority
    by_cases hz : z.2.priority < x.2.priority
    · rw [if_pos hz]
      simp only [List.mem_cons, ih]
      tauto
    · rw [if_neg hz]
      simp only [List.mem_cons]

theorem mem_sortByPriority (y : LLMProvider × LLMConfig)
    (l : List (LLMProvider × LLMConfig)) :
    y ∈ sortByPriority l ↔ y ∈ l := by
  induction l with
  | nil => simp [sortByPriority]
  | cons z zs ih =>
    unfold sortByPriority
    rw [mem_insertByPriority]
    simp only [List.mem_cons, ih]

theorem sorted_insertByPriority (x : LLMProvider × LLMConfig)
    (l : List (LLMProvider × LLMConfig))
    (h : l.Pairwise (fun a b => a.2.priority ≤ b.2.priority)) :
    (insertByPriority x l).Pairwise (fun a b => a.2.priority ≤ b.2.priority) := by
  induction l with
  | nil => simp [insertByPriority]
  | cons z zs ih =>
    obtain ⟨hz, hzs⟩ := List.pairwise_cons.mp h
    unfold insertByPriority
    by_cases hle : z.2.priority < x.2.priority
    · rw [if_pos hle]
      refine List.pairwise_cons.mpr ⟨?_, ih hzs⟩
      intro b hb
      rcases (mem_insertByPriority x b zs).mp hb with hb | hb
      · exact hb ▸ Nat.le_of_lt hle
      · exact hz b hb
    · rw [if_neg hle]
      refine List.pairwise_cons.mpr ⟨?_, h⟩
      intro b hb
      have hxz : x.2.priority ≤ z.2.priority := Nat.le_of_not_lt hle
      rcases List.mem_cons.mp hb with hb | hb
      · exact hb ▸ hxz
      · exact Nat.le_trans hxz (hz b hb)

theorem sorted_sortByPriority (l : List (LLMProvider × LLMConfig)) :
    (sortByPriority l).Pairwise (fun a b => a.2.priority ≤ b.2.priority) := by
  induction l with
  | nil => simp [sortByPriority]
  | cons z zs ih => exact sorted_insertByPriority z _ ih

theorem findUsable_some_mem (hw : HardwareProfile)
    (l : List (LLMProvider × LLMConfig)) (p : LLMProvider)
    (h : findUsable hw l = some p) :
    ∃ c, (p, c) ∈ l ∧ canUseProvider hw c = true := by
  induction l with
  | nil => simp [findUsable] at h
  | cons pc rest ih =>
    unfold findUsable at h
    by_cases hc : canUseProvider hw pc.2 = true
    · rw [if_pos hc] at h
      cases h
      exact ⟨pc.2, by simp, hc⟩
    · rw [if_neg hc] at h
      obtain ⟨c, hm, hcu⟩ := ih h
      exact ⟨c, List.mem_cons_of_mem _ hm, hcu⟩

theorem findUsable_min (hw : HardwareProfile) (l : List (LLMProvider × LLMConfig))
    (pA : LLMProvider) (cA : LLMConfig)
    (hsorted : l.Pairwise (fun a b => a.2.priority ≤ b.2.priority))
    (hmem : (pA, cA) ∈ l) (hcan : canUseProvider hw cA = true)
    (hmin : ∀ p c, (p, c) ∈ l → canUseProvider hw c = true →
            (p, c) ≠ (pA, cA) → cA.priority < c.priority) :
    findUsable hw l = some pA := by
  induction l with
  | nil => cases hmem
  | cons x xs ih =>
    obtain ⟨hx, hxs⟩ := List.pairwise_cons.mp hsorted
    rcases List.mem_cons.mp hmem with hh | hh
    · unfold findUsable
      rw [← hh]
      rw [if_pos hcan]
    · by_cases hcx : canUseProvider hw x.2 = true
      · by_cases hxeq : x = (pA, cA)
        · unfold findUsable
          rw [hxeq, if_pos hcan]
        · exfalso
          have hlt : cA.priority < x.2.priority := by
            refine hmin x.1 x.2 ?_ hcx ?_
            · simp
            · simpa using hxeq
          have hle : x.2.priority ≤ cA.priority := hx (pA, cA) hh
          exact Nat.lt_irrefl _ (Nat.lt_of_lt_of_le hlt hle)
      · unfold findUsable
        rw [if_neg hcx]
        exact ih hxs hh
          (fun p c hm hc hne => hmin p c (List.mem_cons_of_mem _ hm) hc hne)

theorem selectLoop_fallback_or_usable (st : OptState) :
    selectLoop st = .fallback
    ∨ ∃ c2, (selectLoop st, c2) ∈ st.availableProviders
        ∧ canUseProvider st.hardware c2 = true := by
  unfold selectLoop
  cases hf : findUsable st.hardware (sortByPriority st.availableProviders) with
  | none => exact Or.inl rfl
  | some p =>
    obtain ⟨c2, hm, hc⟩ := findUsable_some_mem _ _ _ hf
    exact Or.inr ⟨c2, (mem_sortByPriority _ _).mp hm, hc⟩

/-! ## Claim C4 -/

/-- C4 counterexample: both `deepseek_local` (priority 1) and `fallback`
(priority 10) are registered and usable, no constraint excludes
`deepseek_local`, yet with a user preference for `fallback` set,
`_select_best_provider` returns `fallback`, not the lowest-priority eligible
candidate. -/
theorem preference_overrides_priority :
    selectBestProvider stPref = .fallback
    ∧ selectBestProvider stPref ≠ .deepseekLocal
    ∧ (LLMProvider.deepseekLocal, cfgLocal1) ∈ stPref.availableProviders
    ∧ canUseProvider stPref.hardware cfgLocal1 = true
    ∧ (LLMProvider.fallback, cfgFallback10) ∈ stPref.availableProviders
    ∧ canUseProvider stPref.hardware cfgFallback10 = true
    ∧ cfgLocal1.priority < cfgFallback10.priority := by
  refine ⟨rfl, by decide, by decide, by decide, by decide, by decide, by decide⟩

theorem apiFind_min (cfgs : ModelType → ModelCfg) (models : List ModelType)
    (mtA : ModelType) (l : List ModelType)
    (hsorted : l.Pairwise (fun a b => (cfgs a).priority < (cfgs b).priority))
    (hmem : mtA ∈ l) (hen : (cfgs mtA).enabled = true) (hready : mtA ∈ models)
    (hmin : ∀ mt, mt ∈ models → (cfgs mt).enabled = true → mt ≠ mtA →
        (cfgs mtA).priority < (cfgs mt).priority) :
    l.find? (fun mt => (cfgs mt).enabled = true ∧ mt ∈ models) = some mtA := by
  induction l with
  | nil => cases hmem
  | cons x xs ih =>
    obtain ⟨hx, hxs⟩ := List.pairwise_cons.mp hsorted
    rcases List.mem_cons.mp hmem with heq | htail
    · subst heq
      rw [List.find?_cons_of_pos]
      simp [hen, hready]
    · by_cases hpx : (cfgs x).enabled = true ∧ x ∈ models
      · exfalso
        have hne : x ≠ mtA := by
          rintro rfl
          exact Nat.lt_irrefl _ (hx _ htail)
        have h1 : (cfgs mtA).priority < (cfgs x).priority := hmin x hpx.2 hpx.1 hne
        have h2 : (cfgs x).priority < (cfgs mtA).priority := hx mtA htail
        omega
      · rw [List.find?_cons_of_neg]
        · exact ih hxs htail
        · simpa using hpx

/-- C4 (amended): both cited selection routines realize lowest-priority-value
selection only on their main path.  (i) `OptimizedLLMManager._select_best_provider`:
when no user preference is set, it returns the usable registered provider with
the strictly lowest priority value among all usable providers; a registered,
usable user preference overrides this priority order and is returned instead.
(ii) `APILLMManager._select_optimal_model` walks the hard-coded cost-optimized
order `model_priority`; whenever the configured priorities are strictly
increasing along that walk — as the shipped default priorities 1, 2, 3, 4 are —
it selects the enabled, ready model with the strictly lowest priority value;
(iii) when no model is both enabled and ready, it instead falls back to the
first ready model in registration order (which need not be enabled or
lowest-priority). -/
theorem select_lowest_priority_no_preference (st : OptState)
    (pA : LLMProvider) (cA : LLMConfig) (apiSt : APIState) (mtA : ModelType)
    (hpref : st.userPreference = none)
    (hmem : (pA, cA) ∈ st.availableProviders)
    (hcan : canUseProvider st.hardware cA = true)
    (hmin : ∀ p c, (p, c) ∈ st.availableProviders →
            canUseProvider st.hardware c = true →
            (p, c) ≠ (pA, cA) → cA.priority < c.priority)
    (hsorted : modelPriorityList.Pairwise
        (fun a b => (apiSt.configs a).priority < (apiSt.configs b).priority))
    (henA : (apiSt.configs mtA).enabled = true)
    (hreadyA : mtA ∈ apiSt.models)
    (hminApi : ∀ mt, mt ∈ apiSt.models → (apiSt.configs mt).enabled = true →
        mt ≠ mtA → (apiSt.configs mtA).priority < (apiSt.configs mt).priority) :
    selectBestProvider st = pA
    ∧ apiSelectOptimalModel apiSt = some mtA
    ∧ (∀ st2 : APIState,
        (∀ mt ∈ modelPriorityList,
          ¬((st2.configs mt).enabled = true ∧ mt ∈ st2.models)) →
        apiSelectOptimalModel st2 = st2.models.head?) := by
  refine ⟨?_, ?_, ?_⟩
  · unfold selectBestProvider
    rw [hpref]
    unfold selectLoop
    rw [findUsable_min st.hardware _ pA cA (sorted_sortByPriority _)
      ((mem_sortByPriority _ _).mpr hmem) hcan
      (fun p c hm hc hne => hmin p c ((mem_sortByPriority _ _).mp hm) hc hne)]
  · have hmemA : mtA ∈ modelPriorityList := by
      cases mtA <;> simp [modelPriorityList]
    unfold apiSelectOptimalModel
    rw [apiFind_min apiSt.configs apiSt.models mtA modelPriorityList hsorted
      hmemA henA hreadyA hminApi]
  · intro st2 hnone
    have hfn : modelPriorityList.find?
        (fun mt => (st2.configs mt).enabled = true ∧ mt ∈ st2.models) = none := by
      rw [List.find?_eq_none]
      intro x hx
      simpa using hnone x hx
    unfold apiSelectOptimalModel
    rw [hfn]

/-- C4 witness: with no preference, the priority-1 local provider beats the
priority-10 fallback provider in `_select_best_provider`, and with Claude and
Gemini ready under the default configs, `_select_optimal_model` picks Gemini,
the lowest-priority enabled ready model. -/
theorem select_lowest_priority_witness :
    selectBestProvider stNoPref = .deepseekLocal
    ∧ apiSelectOptimalModel apiStW = some .apiGemini := by
  have h := select_lowest_priority_no_preference stNoPref .deepseekLocal cfgLocal1
    apiStW .apiGemini rfl (by decide) (by decide)
    (by
      intro p c hm hc hne
      rcases List.mem_cons.mp hm with h | h
      · exact absurd h hne
      · rcases List.mem_cons.mp h with h2 | h2
        · rw [Prod.mk.injEq] at h2
          rw [h2.2]
          decide
        · cases h2)
    (by decide) (by decide) (by decide)
    (by
      intro mt
      cases mt <;> decide)
  exact ⟨h.1, h.2.1⟩

/-! ## Claim C5 -/

/-- C5 counterexample: on a 2 GB RAM profile no registered provider passes
`_can_use_provider` (even the FALLBACK config carries the dataclass default
`min_ram_gb = 4`), and `_select_best_provider` still returns the FALLBACK
provider — a backend whose `minRamGB` exceeds available RAM is returned by
selection. -/
theorem fallback_returned_despite_ram_violation :
    selectBestProvider lowRamState = .fallback
    ∧ (LLMProvider.fallback, cfgFallback10) ∈ lowRamState.availableProviders
    ∧ cfgFallback10.minRamGb > lowRamState.hardware.ramGb
    ∧ canUseProvider lowRamState.hardware cfgFallback10 = false := by
  refine ⟨rfl, by decide, by decide, by decide⟩

/-- C5 (amended): a backend requiring a missing GPU or more RAM than the
profile has never passes `_can_use_provider`, so neither the user-preference
branch nor the priority loop of `_select_best_provider` ever returns it — every
selected provider either passes the hardware check or is the unconditional
terminal default FALLBACK, which selection returns even when FALLBACK itself
fails the RAM check.  Likewise `_check_system_resources` rejects a local model
whose positive RAM requirement exceeds available RAM. -/
theorem hardware_gate_excludes_violators (st : OptState) (c : LLMConfig)
    (hbad : (c.requiresGpu = true ∧ st.hardware.hasGpu = false)
            ∨ st.hardware.ramGb < c.minRamGb) :
    canUseProvider st.hardware c = false
    ∧ (selectBestProvider st = .fallback
       ∨ ∃ c2, (selectBestProvider st, c2) ∈ st.availableProviders
           ∧ canUseProvider st.hardware c2 = true)
    ∧ (∀ availRam minRam : ℚ, 0 < minRam → availRam < minRam →
        checkSystemResources availRam minRam = false) := by
  refine ⟨?_, ?_, ?_⟩
  · unfold canUseProvider
    rcases hbad with hg | hr
    · rw [if_pos hg]
    · by_cases hg : c.requiresGpu = true ∧ st.hardware.hasGpu = false
      · rw [if_pos hg]
      · rw [if_neg hg, if_pos hr]
  · unfold selectBestProvider
    split
    · rename_i pref hup
      split
      · rename_i pc hfp
        split
        · rename_i hcu
          right
          have hmem := List.mem_of_find?_eq_some hfp
          have hp : pc.1 = pref := by
            have := List.find?_some hfp
            simpa using this
          refine ⟨pc.2, ?_, hcu⟩
          rw [← hp]
          simpa using hmem
        · exact selectLoop_fallback_or_usable st
      · exact selectLoop_fallback_or_usable st
    · exact selectLoop_fallback_or_usable st
  · intro availRam minRam hpos hlt
    unfold checkSystemResources
    rw [if_pos hpos, if_pos hlt]

/-- C5 witness (spec scenario B): on the 4 GB profile a backend requiring 8 GB
RAM fails the hardware check. -/
theorem hardware_gate_witness :
    st4.hardware.ramGb < cfg8.minRamGb
    ∧ canUseProvider st4.hardware cfg8 = false :=
  ⟨by decide,
   (hardware_gate_excludes_violators st4 cfg8 (Or.inr (by decide))).1⟩

/-! ## Claim C6 -/

/-- C6: whenever `execute_coordinated_task` returns a `CoordinatedResponse`,
its `success` flag is true exactly when at least one of its engine responses
succeeded (`success = any(response.success ...)`). -/
theorem coordinated_success_iff {σ ρ : Type} (registered : List EngineType)
    (run : EngineType → σ → Except String ρ) (outputData : ρ → Option σ)
    (enhance : σ → EngineType → ρ → σ) (req : CoordinatedRequest σ)
    (resp : CoordinatedResponse ρ)
    (h : executeCoordinatedTask registered run outputData enhance req = .ok resp) :
    resp.success = true ↔ ∃ r ∈ resp.engineResponses, r.success = true := by
  unfold executeCoordinatedTask at h
  by_cases he : (runStrategy registered run outputData enhance req).isEmpty
  · rw [if_pos he] at h
    cases h
  · rw [if_neg he] at h
    simp only [Except.ok.injEq] at h
    subst h
    simp [List.any_eq_true]

/-- C6 witness: a concrete sequential request whose returned response
satisfies the equivalence. -/
theorem coordinated_success_iff_witness :
    ∃ resp, executeCoordinatedTask registeredW runW outDataW enhanceW reqW = .ok resp
      ∧ (resp.success = true ↔ ∃ r ∈ resp.engineResponses, r.success = true) :=
  ⟨_, rfl, coordinated_success_iff registeredW runW outDataW enhanceW reqW _ rfl⟩

/-! ## Claim C7 -/

theorem engineWithTiming_engineType {σ ρ : Type}
    (run : EngineType → σ → Except String ρ) (tt : String) (e : EngineType) (d : σ) :
    (engineWithTiming run tt e d).engineType = e := by
  unfold engineWithTiming
  cases run e d <;> rfl

theorem engineWithTiming_congr {σ ρ : Type}
    (run run2 : EngineType → σ → Except String ρ) (tt : String) (e : EngineType)
    (d : σ) (h : run e d = run2 e d) :
    engineWithTiming run tt e d = engineWithTiming run2 tt e d := by
  unfold engineWithTiming
  rw [h]

/-- C7: per-engine failure isolation.  (i) In sequential mode a raising engine
yields a failed `EngineResponse` with the error in its metadata, and the
remaining steps run on the unmodified context; (ii) in parallel mode a raising
engine contributes a failed response with the error recorded, (iii) every
succeeding sibling still contributes its successful response, and (iv) the
responses attributed to an engine depend only on that engine's own outcome —
replacing the outcomes of all other engines (e.g. making them raise) leaves
them unchanged, so one engine's failure cannot cancel its siblings. -/
theorem engine_failure_isolated {σ ρ : Type} (registered : List EngineType)
    (run : EngineType → σ → Except String ρ) (outputData : ρ → Option σ)
    (e : EngineType) (es : List EngineType) (data : σ) (ord : Nat) (msg : String)
    (hreg : e ∈ registered) (hfail : run e data = .error msg) :
    (executeSequential registered run outputData (e :: es) data ord
       = { engineType := e, success := false, result := none,
           metadata := [("error", msg)] }
         :: executeSequential registered run outputData es data (ord + 1))
    ∧ (∀ tt (engines : List EngineType), e ∈ engines →
        ({ engineType := e, success := false, result := none,
           metadata := [("error", msg), ("task_type", tt)] } : EngineResponse ρ)
          ∈ executeParallel registered run tt engines data)
    ∧ (∀ tt (engines : List EngineType) (e2 : EngineType) (r : ρ),
        e2 ∈ engines → e2 ∈ registered → run e2 data = .ok r →
        ({ engineType := e2, success := true, result := some r,
           metadata := [("task_type", tt)] } : EngineResponse ρ)
          ∈ executeParallel registered run tt engines data)
    ∧ (∀ (run2 : EngineType → σ → Except String ρ) (tt : String)
        (engines : List EngineType) (e2 : EngineType),
        run e2 data = run2 e2 data →
        (executeParallel registered run tt engines data).filter
            (fun resp => resp.engineType = e2)
          = (executeParallel registered run2 tt engines data).filter
            (fun resp => resp.engineType = e2)) := by
  refine ⟨?_, ?_, ?_, ?_⟩
  · simp only [executeSequential, if_pos hreg, hfail]
  · intro tt engines he2
    unfold executeParallel
    refine List.mem_map.mpr ⟨e, List.mem_filter.mpr ⟨he2, by simp [hreg]⟩, ?_⟩
    simp [engineWithTiming, hfail]
  · intro tt engines e2 r he2 hr2 hok
    unfold executeParallel
    refine List.mem_map.mpr ⟨e2, List.mem_filter.mpr ⟨he2, by simp [hr2]⟩, ?_⟩
    simp [engineWithTiming, hok]
  · intro run2 tt engines e2 hagree
    unfold executeParallel
    induction engines with
    | nil => rfl
    | cons x xs ih =>
      by_cases hx : x ∈ registered
      · simp only [List.filter_cons, hx, decide_True, if_true, List.map_cons]
        by_cases hxe : x = e2
        · subst hxe
          simp [engineWithTiming_engineType,
            engineWithTiming_congr run run2 tt x data hagree, ih]
        · simp [engineWithTiming_engineType, hxe, ih]
      · simp only [List.filter_cons, hx, decide_False, Bool.false_eq_true, if_false]
        exact ih

/-- C7 witness (spec scenario C): Recall raises, the sequential run records the
failed response and continues with Creative on the unmodified context. -/
theorem engine_failure_isolated_witness :
    EngineType.perfectRecall ∈ registeredW
    ∧ runW EngineType.perfectRecall 0 = .error "boom"
    ∧ executeSequential registeredW runW outDataW
        [EngineType.perfectRecall, EngineType.creative] 0 0
        = { engineType := .perfectRecall, success := false, result := none,
            metadata := [("error", "boom")] }
          :: executeSequential registeredW runW outDataW [EngineType.creative] 0 1 :=
  ⟨by decide, rfl,
   (engine_failure_isolated registeredW runW outDataW .perfectRecall
     [.creative] 0 0 "boom" (by decide) rfl).1⟩

/-! ## Claim C9 -/

theorem recordSuccesses_closed (ls : List ℚ) (n : Nat) (a : ℚ) :
    (recordSuccesses ⟨n, 0, a⟩ ls).successfulRequests = n + ls.length
    ∧ (recordSuccesses ⟨n, 0, a⟩ ls).failedRequests = 0
    ∧ (recordSuccesses ⟨n, 0, a⟩ ls).averageLatency * ((n : ℚ) + (ls.length : ℚ))
        = a * (n : ℚ) + ls.sum := by
  induction ls generalizing n a with
  | nil => simp [recordSuccesses]
  | cons l rest ih =>
    have hstep : updateStats ⟨n, 0, a⟩ true l
        = ⟨n + 1, 0, (a * (n : ℚ) + l) / ((n : ℚ) + 1)⟩ := by
      unfold updateStats
      simp only [if_pos rfl]
      norm_num
    have h1 : recordSuccesses ⟨n, 0, a⟩ (l :: rest)
        = recordSuccesses ⟨n + 1, 0, (a * (n : ℚ) + l) / ((n : ℚ) + 1)⟩ rest := by
      simp only [recordSuccesses, List.foldl_cons, hstep]
    rw [h1]
    obtain ⟨hs, hf, ha⟩ := ih (n + 1) ((a * (n : ℚ) + l) / ((n : ℚ) + 1))
    refine ⟨by rw [hs, List.length_cons]; omega, hf, ?_⟩
    have hlen : ((n : ℚ) + (((l :: rest).length : ℕ) : ℚ))
        = (((n + 1 : ℕ) : ℚ) + ((rest.length : ℕ) : ℚ)) := by
      push_cast [List.length_cons]
      ring
    rw [hlen, ha]
    have hne : ((n : ℚ) + 1) ≠ 0 := by positivity
    push_cast
    field_simp
    ring

/-- C9: starting from the zeroed stats, k successful calls through
`_update_stats` with latencies L1..Lk leave `average_latency` equal to the
arithmetic mean (L1+...+Lk)/k, with k successes and no failures recorded (the
running update `(avg*(n-1)+L)/n` over n recorded calls realizes the mean
exactly, computed here in exact rational arithmetic). -/
theorem avg_latency_arithmetic_mean (ls : List ℚ) (h : ls ≠ []) :
    (recordSuccesses initialStats ls).averageLatency = ls.sum / (ls.length : ℚ)
    ∧ (recordSuccesses initialStats ls).successfulRequests = ls.length
    ∧ (recordSuccesses initialStats ls).failedRequests = 0 := by
  obtain ⟨hs, hf, ha⟩ := recordSuccesses_closed ls 0 0
  have h0 : ls.length ≠ 0 := by
    simpa [List.length_eq_zero] using h
  have hlen : (ls.length : ℚ) ≠ 0 := Nat.cast_ne_zero.mpr h0
  refine ⟨?_, by simpa using hs, hf⟩
  simp only [Nat.cast_zero, zero_add, zero_mul] at ha
  rw [eq_div_iff hlen]
  simpa using ha

/-- C9 witness: two successful calls with latencies 2 and 4 give average 3. -/
theorem avg_latency_witness :
    ([2, 4] : List ℚ) ≠ []
    ∧ (recordSuccesses initialStats [2, 4]).averageLatency
        = (([2, 4] : List ℚ).sum) / ((([2, 4] : List ℚ).length : ℕ) : ℚ) :=
  ⟨by simp, (avg_latency_arithmetic_mean [2, 4] (by simp)).1⟩

/-! ## Claim C10 -/

theorem tryFallbackModels_all_fail (st : APIState)
    (api : ModelType → Except String ApiGen) (err : ModelType → String)
    (hfail : ∀ mt, api mt = .error (err mt)) :
    ∀ l, tryFallbackModels st api l = .error "All models failed" := by
  intro l
  induction l with
  | nil => rfl
  | cons mt rest ih =>
    unfold tryFallbackModels
    by_cases h1 : st.currentModel = some mt
    · rw [if_pos h1]
      exact ih
    · rw [if_neg h1]
      by_cases h2 : mt ∉ st.models
      · rw [if_pos h2]
        exact ih
      · rw [if_neg h2]
        by_cases h3 : (st.configs mt).enabled = false
        · rw [if_pos h3]
          exact ih
        · rw [if_neg h3]
          simp only [generateWithModel, hfail mt]
          exact ih

/-- C10: `APILLMManager.generate_response` never propagates an exception — the
outer handler converts every failure into a returned `LLMResponse` — and when
the current model and every fallback model fail, the returned response carries
model `error-recovery`, cost 0 and confidence 0, distinguishing it from
genuine content (a genuine model response carries confidence 90). -/
theorem api_generate_never_raises (st : APIState)
    (api : ModelType → Except String ApiGen) (prompt : String)
    (err : ModelType → String) (hfail : ∀ mt, api mt = .error (err mt)) :
    (apiGenerateResponse st api prompt).model = "error-recovery"
    ∧ (apiGenerateResponse st api prompt).cost = 0
    ∧ (apiGenerateResponse st api prompt).confidence = 0 := by
  have hfb := tryFallbackModels_all_fail st api err hfail
  unfold apiGenerateResponse
  split
  · split
    · simp only [generateWithModel, hfail]
      split
      · rw [hfb]
        exact ⟨rfl, rfl, rfl⟩
      · exact ⟨rfl, rfl, rfl⟩
    · rw [hfb]
      exact ⟨rfl, rfl, rfl⟩
  · rw [hfb]
    exact ⟨rfl, rfl, rfl⟩

/-- C10 witness: with the single configured model failing, the returned
response is the error-recovery response. -/
theorem api_generate_witness :
    (apiGenerateResponse stApi apiFailFn "hi").model = "error-recovery"
    ∧ (apiGenerateResponse stApi apiFailFn "hi").cost = 0
    ∧ (apiGenerateResponse stApi apiFailFn "hi").confidence = 0 :=
  api_generate_never_raises stApi apiFailFn "hi"
    (fun _ => "connection refused") (fun _ => rfl)
